import Mathlib

/-!
Shallow embedding of `calendar_parser.py` (a Google Calendar parser).

Python strings are modelled as `List Char` (written via `pstr`), so that every
string operation is structurally recursive and kernel-evaluable.  Naive
`datetime` values are modelled as `Int` seconds since the epoch
(1970-01-01 00:00:00), with calendar-field constructors/accessors implemented
by the standard civil-calendar conversion; this matches the normalisation that
`time.mktime`/`datetime.fromtimestamp` perform on a parsed `time_struct`.
Python exceptions are modelled by `Except PyErr`.
-/

abbrev PyStr := List Char

/-- Conversion from a Lean string literal to the `List Char` model. -/
def pstr (s : String) : PyStr := s.data

inductive PyErr where
  | assertionError
  | valueError
  | keyError
  | lookupError
  | typeError
  | unboundLocalError
  | indexError
  | attributeError
deriving DecidableEq, Repr

instance [DecidableEq ε] [DecidableEq α] : DecidableEq (Except ε α)
  | .error a, .error b =>
    match decEq a b with
    | isTrue h => isTrue (congrArg Except.error h)
    | isFalse h => isFalse (fun hh => h (by cases hh; rfl))
  | .error _, .ok _ => isFalse (fun hh => Except.noConfusion hh)
  | .ok _, .error _ => isFalse (fun hh => Except.noConfusion hh)
  | .ok a, .ok b =>
    match decEq a b with
    | isTrue h => isTrue (congrArg Except.ok h)
    | isFalse h => isFalse (fun hh => h (by cases hh; rfl))

/-- Python `str.split()` with no argument: split on whitespace runs, dropping
empty fragments.  `splitP` splits at every character satisfying `p`. -/
def splitP (p : Char → Bool) : List Char → List (List Char)
  | [] => [[]]
  | c :: cs =>
    match splitP p cs with
    | [] => if p c then [[], []] else [[c]]
    | t :: ts => if p c then [] :: t :: ts else (c :: t) :: ts

def pySplit (s : PyStr) : List PyStr :=
  (splitP (fun c => c.isWhitespace) s).filter (fun t => t ≠ [])

/-- Fuel-driven worker for `splitOnL` (fuel keeps the recursion structural). -/
def splitOnFu (sep : List Char) : Nat → List Char → List Char → List (List Char)
  | 0, s, acc => [acc.reverse ++ s]
  | fu + 1, s, acc =>
    match s with
    | [] => [acc.reverse]
    | c :: cs =>
      if sep.isPrefixOf (c :: cs) then
        acc.reverse :: splitOnFu sep fu (List.drop sep.length (c :: cs)) []
      else
        splitOnFu sep fu cs (c :: acc)

/-- Python `str.split(sep)` for a non-empty literal separator. -/
def splitOnL (sep s : List Char) : List (List Char) :=
  if sep = [] then [s] else splitOnFu sep (s.length + 1) s []

/-- Python `str.replace(old, new, 1)`: replace the first occurrence only. -/
def replaceFirst (pat repl s : List Char) : List Char :=
  match splitOnL pat s with
  | [] => s
  | a :: rest => if rest = [] then s else a ++ repl ++ List.intercalate pat rest

/-- Fuel-driven worker for `replaceAllL`. -/
def replaceAllFu (pat repl : List Char) : Nat → List Char → List Char
  | 0, s => s
  | _ + 1, [] => []
  | fu + 1, c :: cs =>
    if pat.isPrefixOf (c :: cs) then
      repl ++ replaceAllFu pat repl fu (List.drop pat.length (c :: cs))
    else
      c :: replaceAllFu pat repl fu cs

/-- Python `str.replace(old, new)` for a non-empty pattern. -/
def replaceAllL (pat repl s : List Char) : List Char :=
  if pat = [] then s else replaceAllFu pat repl (s.length + 1) s

/-- Python `s.rsplit(sep, 1)[0]` for a single-character separator: everything
before the last occurrence of `sep` (the whole string when `sep` is absent). -/
def rsplitDropLast (sep : Char) (s : List Char) : List Char :=
  if s.contains sep then
    ((s.reverse.dropWhile (fun c => c ≠ sep)).drop 1).reverse
  else s

/-- Python `str.lower()` (ASCII, which is all the parser compares). -/
def lowerP (s : PyStr) : PyStr := s.map Char.toLower

/-- Python `str.strip()`. -/
def stripP (s : PyStr) : PyStr :=
  ((s.dropWhile Char.isWhitespace).reverse.dropWhile Char.isWhitespace).reverse

/-- Python `" ".join(tokens)`. -/
def joinSpace (ts : List PyStr) : PyStr := List.intercalate (pstr " ") ts

/-- Numeric parse of a non-empty all-digit token (what `strptime`'s numeric
directives accept). -/
def digitsToNat? (s : List Char) : Option Nat :=
  if s ≠ [] ∧ s.all Char.isDigit then
    some (s.foldl (fun a c => a * 10 + (c.toNat - 48)) 0)
  else none

/-- Day count of the proleptic Gregorian calendar date `(y, m, d)` relative to
1970-01-01 (the standard civil-from-days construction; out-of-range fields
normalise by linear overflow exactly as `time.mktime` does). -/
def daysFromCivil (y m d : Int) : Int :=
  let y' := y - (if m ≤ 2 then 1 else 0)
  let era := y'.fdiv 400
  let yoe := y' - era * 400
  let doy := (153 * (if 2 < m then m - 3 else m + 9) + 2).fdiv 5 + d - 1
  let doe := yoe * 365 + yoe.fdiv 4 - yoe.fdiv 100 + doy
  era * 146097 + doe - 719468

/-- Inverse of `daysFromCivil`: the `(year, month, day)` of an epoch day count. -/
def civilFromDays (z0 : Int) : Int × Int × Int :=
  let z := z0 + 719468
  let era := z.fdiv 146097
  let doe := z - era * 146097
  let yoe := (doe - doe.fdiv 1460 + doe.fdiv 36524 - doe.fdiv 146096).fdiv 365
  let y := yoe + era * 400
  let doy := doe - (365 * yoe + yoe.fdiv 4 - yoe.fdiv 100)
  let mp := (5 * doy + 2).fdiv 153
  let d := doy - (153 * mp + 2).fdiv 5 + 1
  let m := mp + (if mp < 10 then 3 else -9)
  (y + (if m ≤ 2 then 1 else 0), m, d)

/-- Naive local `datetime(y, m, d, h, mi, s)` as epoch seconds. -/
def mkDatetime (y m d h mi s : Int) : Int :=
  daysFromCivil y m d * 86400 + h * 3600 + mi * 60 + s

def dtYear (t : Int) : Int := (civilFromDays (t.fdiv 86400)).1
def dtMonth (t : Int) : Int := (civilFromDays (t.fdiv 86400)).2.1
def dtDay (t : Int) : Int := (civilFromDays (t.fdiv 86400)).2.2
def dtHour (t : Int) : Int := (t.fdiv 3600).emod 24
def dtMinute (t : Int) : Int := (t.fdiv 60).emod 60
def dtSecond (t : Int) : Int := t.emod 60
/-- Seconds elapsed since the previous midnight. -/
def dtTimeOfDay (t : Int) : Int := t.emod 86400

/-! ## TimeParser: `_parse_time` and the `TIME_FORMATS` tuple -/

/-- Fields of a `time.struct_time` produced by `strptime` (the fields that
`mktime` consumes). -/
structure TimeStruct where
  year : Nat
  month : Nat
  day : Nat
  hour : Nat
  minute : Nat
  second : Nat
deriving DecidableEq, Repr

def WEEKDAY_ABBRS : List PyStr :=
  [pstr "Mon", pstr "Tue", pstr "Wed", pstr "Thu", pstr "Fri", pstr "Sat", pstr "Sun"]

def MONTH_ABBRS : List PyStr :=
  [pstr "Jan", pstr "Feb", pstr "Mar", pstr "Apr", pstr "May", pstr "Jun",
   pstr "Jul", pstr "Aug", pstr "Sep", pstr "Oct", pstr "Nov", pstr "Dec"]

/-- Shared front of the first three formats: `"%a %b %d, %Y"` applied to the
tokens `[wd, mon, dayComma, yr]`; yields `(year, month, day)`. -/
def parseDateTokens (wd mon dayc yr : PyStr) : Option (Nat × Nat × Nat) := do
  guard (wd ∈ WEEKDAY_ABBRS)
  let mIdx ← MONTH_ABBRS.findIdx? (fun x => x = mon)
  guard (dayc.getLast? = some ',')
  let d ← digitsToNat? dayc.dropLast
  guard (1 ≤ d ∧ d ≤ 31)
  let y ← digitsToNat? yr
  pure (y, mIdx + 1, d)

/-- Conversion of a 12-hour clock reading with an AM/PM marker to 0..23. -/
def hour12To24 (h12 : Nat) (isPM : Bool) : Nat :=
  if isPM then (if h12 = 12 then 12 else h12 + 12)
  else (if h12 = 12 then 0 else h12)

/-- The `"%I:%M%p"` / `"%I%p"` trailing time token; `withMinutes` selects the
former. -/
def parseClockToken (withMinutes : Bool) (tm : PyStr) : Option (Nat × Nat) := do
  let ampm := tm.drop (tm.length - 2)
  guard (ampm = pstr "AM" ∨ ampm = pstr "PM")
  let hm := tm.take (tm.length - 2)
  if withMinutes then
    match splitOnL (pstr ":") hm with
    | [hs, ms] => do
      let h12 ← digitsToNat? hs
      let mi ← digitsToNat? ms
      guard (1 ≤ h12 ∧ h12 ≤ 12)
      guard (mi ≤ 59)
      pure (hour12To24 h12 (ampm = pstr "PM"), mi)
    | _ => none
  else do
    let h12 ← digitsToNat? hm
    guard (1 ≤ h12 ∧ h12 ≤ 12)
    pure (hour12To24 h12 (ampm = pstr "PM"), 0)

/-- `strptime` with format `"%a %b %d, %Y %I:%M%p"`. -/
def parseFmtA (s : PyStr) : Option TimeStruct :=
  match splitP (fun c => c = ' ') s with
  | [wd, mon, dayc, yr, tm] => do
    let (y, mo, d) ← parseDateTokens wd mon dayc yr
    let (h, mi) ← parseClockToken true tm
    pure ⟨y, mo, d, h, mi, 0⟩
  | _ => none

/-- `strptime` with format `"%a %b %d, %Y %I%p"`. -/
def parseFmtB (s : PyStr) : Option TimeStruct :=
  match splitP (fun c => c = ' ') s with
  | [wd, mon, dayc, yr, tm] => do
    let (y, mo, d) ← parseDateTokens wd mon dayc yr
    let (h, _) ← parseClockToken false tm
    pure ⟨y, mo, d, h, 0, 0⟩
  | _ => none

/-- `strptime` with format `"%a %b %d, %Y"`. -/
def parseFmtC (s : PyStr) : Option TimeStruct :=
  match splitP (fun c => c = ' ') s with
  | [wd, mon, dayc, yr] => do
    let (y, mo, d) ← parseDateTokens wd mon dayc yr
    pure ⟨y, mo, d, 0, 0, 0⟩
  | _ => none

/-- `strptime` with format `"%Y-%m-%dT%H:%M:%S"`. -/
def parseFmtD (s : PyStr) : Option TimeStruct :=
  match splitOnL (pstr "T") s with
  | [dpart, tpart] =>
    (match splitOnL (pstr "-") dpart, splitOnL (pstr ":") tpart with
     | [ys, ms, ds], [hs, mis, ss] => do
       let y ← digitsToNat? ys
       let mo ← digitsToNat? ms
       let d ← digitsToNat? ds
       let h ← digitsToNat? hs
       let mi ← digitsToNat? mis
       let se ← digitsToNat? ss
       guard (1 ≤ mo ∧ mo ≤ 12)
       guard (1 ≤ d ∧ d ≤ 31)
       guard (h ≤ 23)
       guard (mi ≤ 59)
       guard (se ≤ 61)
       pure ⟨y, mo, d, h, mi, se⟩
     | _, _ => none)
  | _ => none

/-- The module-level `TIME_FORMATS` tuple. -/
def TIME_FORMATS : List PyStr :=
  [pstr "%a %b %d, %Y %I:%M%p",
   pstr "%a %b %d, %Y %I%p",
   pstr "%a %b %d, %Y",
   pstr "%Y-%m-%dT%H:%M:%S"]

/-- `time.strptime(s, fmt)` restricted to the four formats the module uses
(`none` models the `ValueError` the `except` clause swallows). -/
def strptimeM (fmt s : PyStr) : Option TimeStruct :=
  if fmt = pstr "%a %b %d, %Y %I:%M%p" then parseFmtA s
  else if fmt = pstr "%a %b %d, %Y %I%p" then parseFmtB s
  else if fmt = pstr "%a %b %d, %Y" then parseFmtC s
  else if fmt = pstr "%Y-%m-%dT%H:%M:%S" then parseFmtD s
  else none

/-- `datetime.fromtimestamp(mktime(time_struct))`: the struct re-expressed as a
naive local datetime (fields normalised). -/
def structToDatetime (ts : TimeStruct) : Int :=
  mkDatetime ts.year ts.month ts.day ts.hour ts.minute ts.second

/-- Lines 28-34 of `_parse_time`: the single-token preprocessing.  A one-token
string containing a dot is truncated at the last dot; a one-token string
without a dot demands a truthy `reference_date` (`assert`), whose first four
tokens then complete the string. -/
def preprocessTime (time_str : PyStr) (reference_date : Option PyStr) :
    Except PyErr PyStr :=
  if (pySplit time_str).length = 1 then
    if time_str.contains '.' then .ok (rsplitDropLast '.' time_str)
    else
      match reference_date with
      | some r =>
        if r = [] then .error .assertionError
        else .ok (joinSpace ((pySplit r).take 4) ++ pstr " " ++ time_str)
      | none => .error .assertionError
  else .ok time_str

/-- Lines 36-40: the scan over `TIME_FORMATS`.  Every format is tried; each
success overwrites `time_struct`, so the last matching format wins. -/
def scanFormats (m : PyStr → PyStr → Option TimeStruct) (fmts : List PyStr)
    (s : PyStr) : Option TimeStruct :=
  fmts.foldl (fun acc f => match m f s with | some t => some t | none => acc) none

/-- The whole of `_parse_time`, parametrised by the `strptime` implementation
`m` (the stdlib collaborator). -/
def parseTimeWith (m : PyStr → PyStr → Option TimeStruct) (time_str : PyStr)
    (reference_date : Option PyStr) : Except PyErr Int := do
  let s ← preprocessTime time_str reference_date
  match scanFormats m TIME_FORMATS s with
  | none => .error .valueError
  | some t => .ok (structToDatetime t)

/-- `_parse_time` itself. -/
def parse_time (time_str : PyStr) (reference_date : Option PyStr) :
    Except PyErr Int :=
  parseTimeWith strptimeM time_str reference_date

/-! ## TimezoneNormalizer: `_fix_timezone` -/

/-- Values flowing through `_fix_timezone` / event fields: a `datetime`
(epoch-seconds fields plus, when timezone-aware, the `utcoffset` of its
`tzinfo` in seconds), a `date`, or any other object (opaque tag).  `datetime`
is a subclass of `date` in Python, but the code tests `type(...) is ...`
exactly, which this separation mirrors. -/
inductive PyVal where
  | dtime (t : Int) (off : Option Int)
  | pdate (y m d : Int)
  | other (n : Nat)
deriving DecidableEq, Repr

/-- A resolved calendar timezone (the `pytz` collaborator): the function giving
the zone's UTC offset in seconds at a given UTC instant. -/
abbrev TzFun := Int → Int

/-- UTC instant denoted by an aware datetime with fields `t` and offset `off`. -/
def utcInstant (t off : Int) : Int := t - off

/-- `datetime.astimezone(tz)`: the same instant's fields in zone `tz`. -/
def astimezoneFields (t off : Int) (tz : TzFun) : Int :=
  utcInstant t off + tz (utcInstant t off)

/-- `_fix_timezone(datetime_obj, time_zone)`. -/
def fix_timezone (v : PyVal) (tz : TzFun) : PyVal :=
  match v with
  | .dtime t (some off) => .dtime (astimezoneFields t off tz) none
  | .dtime _ none => v
  | .pdate y m d => .dtime (mkDatetime y m d 0 0 0) none
  | .other _ => v

/-! ## TextNormalizer: `_normalize` and `_multi_replace` -/

/-- `xml.sax.saxutils.unescape` with no extra entities. -/
def unescapeL (s : PyStr) : PyStr :=
  replaceAllL (pstr "&lt;") (pstr "<")
    (replaceAllL (pstr "&gt;") (pstr ">") s) |>
    replaceAllL (pstr "&amp;") (pstr "&")

/-- `_multi_replace` with the dictionary literal of `_normalize` (iterated in
source order; the five patterns are pairwise non-interacting). -/
def multi_replace (s : PyStr) : PyStr :=
  replaceAllL [Char.ofNat 92] []
    (replaceAllL (pstr "&#39;") [Char.ofNat 39]
      (replaceAllL (pstr "&brvbar;") (pstr "|")
        (replaceAllL (pstr "&quot;") [Char.ofNat 34]
          (replaceAllL (pstr "&nbsp;") (pstr " ") s))))

/-- `_normalize(data_string, convert_whitespace)`. -/
def normalizeS (s : PyStr) (convert_whitespace : Bool) : PyStr :=
  let t := stripP (multi_replace (unescapeL s))
  if convert_whitespace then joinSpace (pySplit t) else t

/-! ## EventRecord: `CalendarEvent` -/

/-- A day-of-month number (from `BYMONTHDAY` or `start_time.day`) or a weekday
code string (from `BYDAY`). -/
inductive RepeatDayVal where
  | i (n : Int)
  | s (code : PyStr)
deriving DecidableEq, Repr

/-- A `CalendarEvent` dictionary.  Every slot is optional: a `none` field is an
absent dictionary key, and reading it raises `KeyError`. -/
structure CalendarEvent where
  name : Option PyStr := none
  description : Option PyStr := none
  location : Option PyStr := none
  start_time : Option PyVal := none
  end_time : Option PyVal := none
  all_day : Option Bool := none
  repeats : Option Bool := none
  repeat_freq : Option PyStr := none
  repeat_day : Option RepeatDayVal := none
  repeat_month : Option Int := none
  repeat_until : Option PyVal := none
deriving DecidableEq, Repr

/-- Dictionary read `event_dict[key]`: `KeyError` when the slot is absent. -/
def getKey (v : Option α) : Except PyErr α :=
  match v with
  | some x => .ok x
  | none => .error .keyError

/-- Attribute reads on a `start_time`-like value: `.day` works on both
`datetime` and `date`; anything else raises `AttributeError`. -/
def pvDay (v : PyVal) : Except PyErr Int :=
  match v with
  | .dtime t _ => .ok (dtDay t)
  | .pdate _ _ d => .ok d
  | .other _ => .error .attributeError

def pvMonth (v : PyVal) : Except PyErr Int :=
  match v with
  | .dtime t _ => .ok (dtMonth t)
  | .pdate _ m _ => .ok m
  | .other _ => .error .attributeError

/-- `.hour` / `.minute` exist on `datetime` only (a `date` lacks them). -/
def pvHour (v : PyVal) : Except PyErr Int :=
  match v with
  | .dtime t _ => .ok (dtHour t)
  | _ => .error .attributeError

def pvMinute (v : PyVal) : Except PyErr Int :=
  match v with
  | .dtime t _ => .ok (dtMinute t)
  | _ => .error .attributeError

/-- `end_time - start_time` (a `timedelta`, in seconds); defined for two naive
datetimes, `TypeError` otherwise. -/
def pvSub (a b : PyVal) : Except PyErr Int :=
  match a, b with
  | .dtime ta none, .dtime tb none => .ok (ta - tb)
  | _, _ => .error .typeError

/-- `CalendarEvent.__lt__`: comparison by `start_time` (defined when both are
naive datetimes, which is what every parse path stores). -/
def evLt (a b : CalendarEvent) : Bool :=
  match a.start_time, b.start_time with
  | some (.dtime ta none), some (.dtime tb none) => decide (ta < tb)
  | _, _ => false

/-! ## CalendarStore: `CalendarParser` state -/

/-- The mutable state of a `CalendarParser` object.  The `calendar` attribute
(the fetched document tree) lives with the external fetch/parse collaborators
and is passed to the parse functions directly; `time_zone` holds the resolved
zone's name (resolution to an offset rule is the `pytz` collaborator). -/
structure CalendarParser where
  ics_file : Option PyStr := none
  ics_url : Option PyStr := none
  xml_file : Option PyStr := none
  xml_url : Option PyStr := none
  time_zone : Option PyStr := none
  title : PyStr := []
  subtitle : PyStr := []
  author : PyStr := []
  email : PyStr := []
  last_updated : Option Int := none
  date_published : Option Int := none
  events : List CalendarEvent := []
deriving DecidableEq, Repr

/-- Result of `CalendarParser.__getitem__` on a string key. -/
inductive GetItemRes where
  | single (e : CalendarEvent)
  | several (l : List CalendarEvent)
deriving DecidableEq, Repr

/-- Lines 168-180 of `__getitem__` (string-key branch): scan `self.events`
collecting case-insensitive name matches; zero matches raise `LookupError`,
one match returns the record, several return the list. -/
def matchStep (item : PyStr) (acc : List CalendarEvent) (e : CalendarEvent) :
    Except PyErr (List CalendarEvent) :=
  match e.name with
  | none => .error .keyError
  | some n => pure (if lowerP n = lowerP item then acc ++ [e] else acc)

def getitem_str (st : CalendarParser) (item : PyStr) : Except PyErr GetItemRes := do
  let event_list ← st.events.foldlM (matchStep item) ([] : List CalendarEvent)
  match event_list with
  | [] => .error .lookupError
  | [e] => pure (.single e)
  | l => pure (.several l)

/-- The method as a state transition: `__getitem__` never writes `self`, so the
store comes back unchanged alongside the result. -/
def getitem_strS (st : CalendarParser) (item : PyStr) :
    Except PyErr GetItemRes × CalendarParser :=
  (getitem_str st item, st)

/-- Stable insertion step: `x` goes after every `y` with `lt y x` and before
everything else. -/
def insertS (lt : α → α → Bool) (x : α) : List α → List α
  | [] => [x]
  | y :: ys => if lt y x then y :: insertS lt x ys else x :: y :: ys

/-- Stable ascending sort.  CPython's `sorted` is a stable sort driven solely
by `__lt__`; a stable sort's output is unique given the comparator, so stable
insertion sort is extensionally the same function. -/
def sortS (lt : α → α → Bool) : List α → List α
  | [] => []
  | x :: xs => insertS lt x (sortS lt xs)

/-- `sort_by_oldest(sort_in_place)`: `sorted(self.events)`. -/
def sort_by_oldest (st : CalendarParser) (sort_in_place : Bool) :
    List CalendarEvent × CalendarParser :=
  let sorted_events := sortS evLt st.events
  (sorted_events, if sort_in_place then { st with events := sorted_events } else st)

/-- `sort_by_latest(sort_in_place)`: `sorted(self.events, reverse=True)`.
CPython implements `reverse=True` as reverse-sort-reverse, which keeps equal
elements in their original relative order. -/
def sort_by_latest (st : CalendarParser) (sort_in_place : Bool) :
    List CalendarEvent × CalendarParser :=
  let sorted_events := (sortS evLt st.events.reverse).reverse
  (sorted_events, if sort_in_place then { st with events := sorted_events } else st)

/-- The resource `fetch_calendar` elects to read (lines 207-217): `xml_url`,
else `ics_url`, else `xml_file`, else `ics_file`; with nothing set the
`cal_data` local is never bound and `cal_data.read()` raises
`UnboundLocalError` — the spec's ConfigurationError. -/
inductive FetchSrc where
  | xmlUrl (u : PyStr)
  | icsUrl (u : PyStr)
  | xmlFile (f : PyStr)
  | icsFile (f : PyStr)
deriving DecidableEq, Repr

def fetch_source (st : CalendarParser) : Except PyErr FetchSrc :=
  match st.xml_url with
  | some u => .ok (.xmlUrl u)
  | none =>
    match st.ics_url with
    | some u => .ok (.icsUrl u)
    | none =>
      match st.xml_file with
      | some f => .ok (.xmlFile f)
      | none =>
        match st.ics_file with
        | some f => .ok (.icsFile f)
        | none => .error .unboundLocalError

/-! ## FeedExtractor: the `"When: "` branch of `parse_xml` (lines 284-305) -/

/-- The time-span text after prefix stripping and timezone-token dropping. -/
def whenParts (whenSrc : PyStr) : List PyStr :=
  let when0 := replaceFirst (pstr "When: ") [] whenSrc
  let when1 :=
    if 4 < (pySplit when0).length then rsplitDropLast ' ' when0 else when0
  splitOnL (pstr " to ") when1

/-- The `"When: "` branch body: `whenSrc` is the text of
`event.contents[1].next` (the block's when-line).  Two `" to "`-parts give an
explicit end (parsed with the start text as reference); otherwise only the
start is parsed, and a start at minute zero of an hour zero makes the event
all-day with `end_time = start_time + 1 day`. -/
def whenBranch (d : CalendarEvent) (whenSrc : PyStr) :
    Except PyErr CalendarEvent := do
  let d1 ←
    match whenParts whenSrc with
    | [startStr, endStr] => do
      let en ← parse_time endStr (some startStr)
      let st ← parse_time startStr none
      pure { d with end_time := some (.dtime en none),
                    start_time := some (.dtime st none) }
    | startStr :: _ => do
      let st ← parse_time startStr none
      pure { d with start_time := some (.dtime st none) }
    | [] => do
      let st ← parse_time [] none
      pure { d with start_time := some (.dtime st none) }
  let stv ← getKey d1.start_time
  let h ← pvHour stv
  let mi ← pvMinute stv
  if d1.end_time = none ∧ h = 0 ∧ mi = 0 then
    match stv with
    | .dtime t _ =>
      pure { d1 with all_day := some true, end_time := some (.dtime (t + 86400) none) }
    | _ => .error .typeError
  else
    pure { d1 with all_day := some false }

/-! ## IcsExtractor: `parse_ics` (lines 320-379) -/

/-- An `RRULE` property as the `icalendar` collaborator hands it over: a
mapping from sub-field names to value lists (`none` = key absent). -/
structure RRuleDict where
  freq : Option (List PyStr) := none
  byday : Option (List PyStr) := none
  bymonthday : Option (List Int) := none
  bymonth : Option (List Int) := none
  untilL : Option (List PyVal) := none
deriving DecidableEq, Repr

/-- A VEVENT component as the `icalendar` collaborator exposes it. -/
structure IcsEvent where
  summary : Option PyStr := none
  description : Option PyStr := none
  location : Option PyStr := none
  dtstart : Option PyVal := none
  dtend : Option PyVal := none
  rrule : Option RRuleDict := none
deriving DecidableEq, Repr

/-- The parsed `icalendar.Calendar` object: the two top-level properties
`parse_ics` reads, and the `Event`-typed components `walk()` yields. -/
structure IcsCal where
  wr_timezone : Option PyStr := none
  wr_calname : Option PyStr := none
  events : List IcsEvent := []
deriving DecidableEq, Repr

/-- List subscript `l[0]` (`IndexError` on an empty list). -/
def pyHead (l : List α) : Except PyErr α :=
  match l with
  | x :: _ => .ok x
  | [] => .error .indexError

/-- Lines 336-347: the non-recurrence fields of one VEVENT.  `location` is
copied only when present *and* truthy (a non-empty string). -/
def buildBase (tz : TzFun) (ev : IcsEvent) : CalendarEvent :=
  { name := ev.summary.map (fun s => normalizeS s false),
    description := ev.description.map (fun s => normalizeS s false),
    location :=
      match ev.location with
      | some l => if l ≠ [] then some (normalizeS l false) else none
      | none => none,
    start_time := ev.dtstart.map (fun v => fix_timezone v tz),
    end_time := ev.dtend.map (fun v => fix_timezone v tz),
    repeats := some false }

/-- Lines 354-363: the `FREQ == "YEARLY"` branch.  `repeat_day`/`repeat_month`
are seeded from `start_time` (a `KeyError` when DTSTART was absent), and
`all_day` is decided by the midnight test — whose `and` chain only reads
`end_time` when hour and minute are both zero. -/
def yearlyFields (d : CalendarEvent) : Except PyErr (Int × Int × Bool) := do
  let stv ← getKey d.start_time
  let day ← pvDay stv
  let mo ← pvMonth stv
  let h ← pvHour stv
  let mi ← pvMinute stv
  if h = 0 ∧ mi = 0 then do
    let env ← getKey d.end_time
    let diff ← pvSub env stv
    pure (day, mo, diff = 86400)
  else
    pure (day, mo, false)

def yearlyBranch (d : CalendarEvent) : Except PyErr CalendarEvent := do
  let (day, mo, ad) ← yearlyFields d
  pure { d with repeat_day := some (.i day), repeat_month := some mo,
                all_day := some ad }

/-- Lines 365-374: `BYDAY` overrides `repeat_day` (else `BYMONTHDAY` does),
`BYMONTH` overrides `repeat_month`, `UNTIL` sets `repeat_until`. -/
def applyOverrides (tz : TzFun) (rep : RRuleDict) (d : CalendarEvent) :
    Except PyErr CalendarEvent := do
  let d1 ←
    match rep.byday with
    | some l => do
      let v ← pyHead l
      pure { d with repeat_day := some (.s v) }
    | none =>
      match rep.bymonthday with
      | some l => do
        let v ← pyHead l
        pure { d with repeat_day := some (.i v) }
      | none => pure d
  let d2 ←
    match rep.bymonth with
    | some l => do
      let v ← pyHead l
      pure { d1 with repeat_month := some v }
    | none => pure d1
  match rep.untilL with
  | some l => do
    let v ← pyHead l
    pure { d2 with repeat_until := some (fix_timezone v tz) }
  | none => pure d2

/-- Lines 335-374: one VEVENT to one `CalendarEvent`. -/
def processIcsEvent (tz : TzFun) (ev : IcsEvent) : Except PyErr CalendarEvent := do
  let base := buildBase tz ev
  match ev.rrule with
  | none => pure base
  | some rep => do
    let fl ← getKey rep.freq
    let freq ← pyHead fl
    let d8 := { base with repeats := some true, repeat_freq := some freq }
    let d9 ← if freq = pstr "YEARLY" then yearlyBranch d8 else pure d8
    applyOverrides tz rep d9

/-- `parse_ics(overwrite_events)`, driven to exhaustion.  `cal` is the tree the
fetch collaborator returns; `tzResolve` is the `pytz` collaborator.  The
method opens with `assert self.ics_url or self.ics_url` — the source tests
`ics_url` twice (it never consults `ics_file`), reproduced here verbatim. -/
def parse_ics (tzResolve : PyStr → TzFun) (st : CalendarParser) (cal : IcsCal)
    (overwrite_events : Bool) : Except PyErr (List CalendarEvent × CalendarParser) := do
  if ¬(st.ics_url.isSome ∨ st.ics_url.isSome) then .error .assertionError
  else do
    let tzName ← getKey cal.wr_timezone
    let title ← getKey cal.wr_calname
    let st1 := { st with time_zone := some tzName, title := title }
    let st2 := if overwrite_events then { st1 with events := [] } else st1
    let produced ← cal.events.foldlM
      (fun acc e => do
        let d ← processIcsEvent (tzResolve tzName) e
        pure (acc ++ [d]))
      ([] : List CalendarEvent)
    pure (produced,
      if overwrite_events then { st2 with events := produced } else st2)

/-- `parse_xml(overwrite_events)`, driven to exhaustion.  Its opening
`assert self.xml_url or self.xml_url` likewise tests `xml_url` twice.  The
body past the assert (positional scraping of the feed tree; its per-line event
logic is modelled by `whenBranch`) is abstracted as the continuation `rest`. -/
def parse_xml (st : CalendarParser)
    (rest : Except PyErr (List CalendarEvent × CalendarParser)) :
    Except PyErr (List CalendarEvent × CalendarParser) :=
  if ¬(st.xml_url.isSome ∨ st.xml_url.isSome) then .error .assertionError
  else rest

/-- What `parse_calendar` hands back when `force_list` is off: the unconsumed
generator (`none` when neither branch assigned one — the Python `None`). -/
inductive GenKind where
  | icsGen
  | xmlGen
deriving DecidableEq, Repr

inductive ParseCalRes where
  | gen (g : Option GenKind)
  | lst (l : List CalendarEvent)
deriving DecidableEq, Repr

/-- `parse_calendar(force_list, use_xml, use_ics, overwrite_events)`
(lines 382-394).  Without `force_list` the selected generator is returned
unconsumed (no body side effects yet, `self` untouched); with `force_list` the
list comprehension drives it, and iterating the unassigned `None` raises
`TypeError`. -/
def parse_calendar (tzResolve : PyStr → TzFun) (st : CalendarParser)
    (cal : IcsCal) (xmlRest : Except PyErr (List CalendarEvent × CalendarParser))
    (force_list use_xml use_ics overwrite_events : Bool) :
    Except PyErr (ParseCalRes × CalendarParser) :=
  let gsel : Option GenKind :=
    if (st.ics_url.isSome ∨ st.ics_file.isSome) ∧ (use_ics ∨ ¬use_xml) then
      some .icsGen
    else if (st.xml_url.isSome ∨ st.xml_file.isSome) ∧ (use_xml ∨ ¬use_ics) then
      some .xmlGen
    else none
  if force_list then
    match gsel with
    | none => .error .typeError
    | some .icsGen =>
      (parse_ics tzResolve st cal overwrite_events).map
        (fun p => (.lst p.1, p.2))
    | some .xmlGen =>
      (parse_xml st xmlRest).map (fun p => (.lst p.1, p.2))
  else
    .ok (.gen gsel, st)

/-! ## Lemmas about the stable sort -/

theorem mem_insertS {lt : α → α → Bool} {x a : α} :
    ∀ {l : List α}, a ∈ insertS lt x l ↔ a = x ∨ a ∈ l := by
  intro l
  induction l with
  | nil => simp [insertS]
  | cons y ys ih =>
    by_cases h : lt y x
    · simp [insertS, h, ih]
      tauto
    · simp [insertS, h]

theorem mem_sortS {lt : α → α → Bool} {a : α} :
    ∀ {l : List α}, a ∈ sortS lt l ↔ a ∈ l := by
  intro l
  induction l with
  | nil => simp [sortS]
  | cons y ys ih => simp [sortS, mem_insertS, ih]

theorem insertS_congr {lt1 lt2 : α → α → Bool} {x : α} :
    ∀ {l : List α}, (∀ y ∈ l, lt1 y x = lt2 y x) →
      insertS lt1 x l = insertS lt2 x l := by
  intro l
  induction l with
  | nil => intro _; rfl
  | cons y ys ih =>
    intro h
    have hy := h y (by simp)
    by_cases hc : lt1 y x
    · rw [insertS, insertS, ← hy, hc]
      simp [ih (fun z hz => h z (by simp [hz]))]
    · rw [insertS, insertS, ← hy]
      simp [hc]

theorem sortS_congr {lt1 lt2 : α → α → Bool} :
    ∀ {l : List α}, (∀ a ∈ l, ∀ b ∈ l, lt1 a b = lt2 a b) →
      sortS lt1 l = sortS lt2 l := by
  intro l
  induction l with
  | nil => intro _; rfl
  | cons x xs ih =>
    intro h
    have hrec : sortS lt1 xs = sortS lt2 xs :=
      ih (fun a ha b hb => h a (by simp [ha]) b (by simp [hb]))
    rw [sortS, sortS, hrec,
      insertS_congr (fun y hy => h y (by simp [mem_sortS.mp hy]) x (by simp))]

theorem perm_insertS {lt : α → α → Bool} {x : α} :
    ∀ {l : List α}, (insertS lt x l).Perm (x :: l) := by
  intro l
  induction l with
  | nil => simp [insertS]
  | cons y ys ih =>
    by_cases h : lt y x
    · simp only [insertS, h, if_true]
      exact (ih.cons y).trans (List.Perm.swap x y ys)
    · simp [insertS, h]

theorem perm_sortS {lt : α → α → Bool} :
    ∀ {l : List α}, (sortS lt l).Perm l := by
  intro l
  induction l with
  | nil => simp [sortS]
  | cons x xs ih => exact (perm_insertS.trans (ih.cons x))

/-- Comparator induced by an integer key (the shape `evLt` takes on events
whose `start_time` is a naive datetime). -/
def keyLt (k : α → Int) (a b : α) : Bool := decide (k a < k b)

theorem filter_insertS_eq_key {k : α → Int} {K : Int} {x : α} (hx : k x = K) :
    ∀ {l : List α},
      (insertS (keyLt k) x l).filter (fun y => decide (k y = K)) =
        x :: l.filter (fun y => decide (k y = K)) := by
  intro l
  induction l with
  | nil => simp [insertS, hx]
  | cons y ys ih =>
    by_cases h : k y < k x
    · have hyK : ¬(k y = K) := by omega
      simp [insertS, keyLt, h, hyK, ih]
    · have h2 : ¬(k y < K) := by omega
      simp [insertS, keyLt, h, hx, h2]

theorem filter_insertS_ne_key {k : α → Int} {K : Int} {x : α} (hx : ¬(k x = K)) :
    ∀ {l : List α},
      (insertS (keyLt k) x l).filter (fun y => decide (k y = K)) =
        l.filter (fun y => decide (k y = K)) := by
  intro l
  induction l with
  | nil => simp [insertS, hx]
  | cons y ys ih =>
    by_cases h : k y < k x
    · simp only [insertS, keyLt]
      simp [h, ih, List.filter_cons]
    · simp [insertS, keyLt, h, hx]

/-- Stability of the ascending sort: the events carrying any fixed key keep
their original relative order. -/
theorem filter_sortS_key {k : α → Int} (K : Int) :
    ∀ (l : List α),
      (sortS (keyLt k) l).filter (fun y => decide (k y = K)) =
        l.filter (fun y => decide (k y = K)) := by
  intro l
  induction l with
  | nil => rfl
  | cons x xs ih =>
    by_cases hx : k x = K
    · rw [sortS, filter_insertS_eq_key hx, ih, List.filter_cons]
      simp [hx]
    · rw [sortS, filter_insertS_ne_key hx, ih, List.filter_cons]
      simp [hx]

theorem pairwise_insertS {k : α → Int} {x : α} :
    ∀ {l : List α}, l.Pairwise (fun a b => k a ≤ k b) →
      (insertS (keyLt k) x l).Pairwise (fun a b => k a ≤ k b) := by
  intro l
  induction l with
  | nil => intro _; simp [insertS]
  | cons y ys ih =>
    intro hp
    rw [List.pairwise_cons] at hp
    by_cases h : k y < k x
    · rw [insertS, if_pos (by simp [keyLt, h])]
      rw [List.pairwise_cons]
      refine ⟨fun z hz => ?_, ih hp.2⟩
      rcases mem_insertS.mp hz with hzx | hzy
      · subst hzx; omega
      · exact hp.1 z hzy
    · rw [insertS, if_neg (by simp [keyLt, h])]
      rw [List.pairwise_cons]
      refine ⟨fun z hz => ?_, List.pairwise_cons.mpr hp⟩
      rcases List.mem_cons.mp hz with hzy | hzys
      · subst hzy; omega
      · have := hp.1 z hzys
        omega

theorem pairwise_sortS {k : α → Int} :
    ∀ (l : List α), (sortS (keyLt k) l).Pairwise (fun a b => k a ≤ k b) := by
  intro l
  induction l with
  | nil => simp [sortS]
  | cons x xs ih => exact pairwise_insertS ih

/-- Weak sortedness upgrades to strict sortedness when the keys are distinct. -/
theorem pairwise_strict_of_nodup {k : α → Int} {l : List α}
    (hs : l.Pairwise (fun a b => k a ≤ k b)) (hn : (l.map k).Nodup) :
    l.Pairwise (fun a b => k a < k b) := by
  have hne : l.Pairwise (fun a b => k a ≠ k b) := by
    rw [List.Nodup, List.pairwise_map] at hn
    exact hn
  have := List.Pairwise.and hs hne
  exact this.imp (fun h => by omega)

/-- Two strictly key-sorted permutations of the same multiset are equal. -/
theorem sorted_perm_unique {k : α → Int} :
    ∀ (l1 l2 : List α), l1.Pairwise (fun a b => k a < k b) →
      l2.Pairwise (fun a b => k a < k b) → l1.Perm l2 → l1 = l2 := by
  intro l1
  induction l1 with
  | nil =>
    intro l2 _ _ hp
    exact (hp.symm.eq_nil).symm
  | cons x t1 ih =>
    intro l2 h1 h2 hp
    match l2 with
    | [] => exact absurd hp.eq_nil (by simp)
    | y :: t2 =>
      have hxy : x = y := by
        by_contra hne
        have hx2 : x ∈ y :: t2 := hp.subset (by simp)
        have hy1 : y ∈ x :: t1 := hp.symm.subset (by simp)
        have hx2' : x ∈ t2 := by
          rcases List.mem_cons.mp hx2 with h | h
          · exact absurd h hne
          · exact h
        have hy1' : y ∈ t1 := by
          rcases List.mem_cons.mp hy1 with h | h
          · exact absurd h.symm hne
          · exact h
        have k1 : k x < k y := (List.pairwise_cons.mp h1).1 y hy1'
        have k2 : k y < k x := (List.pairwise_cons.mp h2).1 x hx2'
        omega
      subst hxy
      have ht : t1.Perm t2 := hp.cons_inv
      rw [ih t2 (List.pairwise_cons.mp h1).2 (List.pairwise_cons.mp h2).2 ht]

/-- With pairwise-distinct keys, sorting is insensitive to the input order:
in particular sorting the reversed list gives the same output. -/
theorem sortS_reverse_eq_of_nodup {k : α → Int} {l : List α}
    (hn : (l.map k).Nodup) :
    sortS (keyLt k) l.reverse = sortS (keyLt k) l := by
  have p1 : (sortS (keyLt k) l.reverse).Perm l :=
    (perm_sortS.trans (List.reverse_perm l))
  have p2 : (sortS (keyLt k) l).Perm l := perm_sortS
  have n1 : ((sortS (keyLt k) l.reverse).map k).Nodup :=
    ((p1.map k).nodup_iff).mpr hn
  have n2 : ((sortS (keyLt k) l).map k).Nodup :=
    ((p2.map k).nodup_iff).mpr hn
  exact sorted_perm_unique _ _
    (pairwise_strict_of_nodup (pairwise_sortS _) n1)
    (pairwise_strict_of_nodup (pairwise_sortS _) n2)
    (p1.trans p2.symm)

/-! ## Claim C1: behaviour of `sort_by_oldest` / `sort_by_latest` -/

/-- Every parse path stores `start_time` as a naive datetime; comparison is
only defined there (`CalendarEvent.__lt__` would raise otherwise). -/
def hasNaiveStart (e : CalendarEvent) : Prop :=
  ∃ t, e.start_time = some (.dtime t none)

/-- The sort key: the epoch seconds of a naive-datetime `start_time`. -/
def ek (e : CalendarEvent) : Int :=
  match e.start_time with
  | some (.dtime t _) => t
  | _ => 0

theorem evLt_eq_keyLt {a b : CalendarEvent}
    (ha : hasNaiveStart a) (hb : hasNaiveStart b) :
    evLt a b = keyLt ek a b := by
  obtain ⟨ta, ha⟩ := ha
  obtain ⟨tb, hb⟩ := hb
  simp [evLt, keyLt, ek, ha, hb]

theorem sortS_evLt_eq_keyLt {l : List CalendarEvent}
    (H : ∀ e ∈ l, hasNaiveStart e) :
    sortS evLt l = sortS (keyLt ek) l :=
  sortS_congr (fun a ha b hb => evLt_eq_keyLt (H a ha) (H b hb))

theorem filter_start_eq_filter_ek {l : List CalendarEvent} {K : Int}
    (H : ∀ e ∈ l, hasNaiveStart e) :
    l.filter (fun e => decide (e.start_time = some (.dtime K none))) =
      l.filter (fun e => decide (ek e = K)) := by
  apply List.filter_congr
  intro e he
  obtain ⟨t, ht⟩ := H e he
  by_cases h : t = K
  · simp [ek, ht, h]
  · simp [ek, ht, h]

/-- C1 (amended).  Both sort methods are *stable*: the events carrying any
given `start_time` keep their original relative order in each output.  The two
outputs are exact reverses of each other whenever no two stored events share a
`start_time`; with a shared `start_time` stability forces both outputs to
order the tied events identically, so they are not reverses (see the
counterexample). -/
theorem sort_by_oldest_latest_stable_and_reverse
    (st : CalendarParser) (b1 b2 : Bool)
    (H : ∀ e ∈ st.events, hasNaiveStart e) :
    (∀ K : Int,
      (sort_by_oldest st b1).1.filter
          (fun e => decide (e.start_time = some (.dtime K none))) =
        st.events.filter (fun e => decide (e.start_time = some (.dtime K none)))
      ∧ (sort_by_latest st b2).1.filter
          (fun e => decide (e.start_time = some (.dtime K none))) =
        st.events.filter (fun e => decide (e.start_time = some (.dtime K none))))
    ∧ (st.events.Pairwise (fun a b => a.start_time ≠ b.start_time) →
        (sort_by_latest st b2).1 = ((sort_by_oldest st b1).1).reverse) := by
  have Hrev : ∀ e ∈ st.events.reverse, hasNaiveStart e :=
    fun e he => H e (List.mem_reverse.mp he)
  have hasc : sortS evLt st.events = sortS (keyLt ek) st.events :=
    sortS_evLt_eq_keyLt H
  have hdes : sortS evLt st.events.reverse = sortS (keyLt ek) st.events.reverse :=
    sortS_evLt_eq_keyLt Hrev
  constructor
  · intro K
    constructor
    · show (sortS evLt st.events).filter _ = _
      have Hs : ∀ e ∈ sortS (keyLt ek) st.events, hasNaiveStart e :=
        fun e he => H e (mem_sortS.mp he)
      rw [hasc, filter_start_eq_filter_ek Hs, filter_sortS_key,
        ← filter_start_eq_filter_ek H]
    · show ((sortS evLt st.events.reverse).reverse).filter _ = _
      have Hs2 : ∀ e ∈ sortS (keyLt ek) st.events.reverse, hasNaiveStart e :=
        fun e he => Hrev e (mem_sortS.mp he)
      rw [hdes, List.filter_reverse, filter_start_eq_filter_ek Hs2,
        filter_sortS_key, List.filter_reverse, List.reverse_reverse,
        ← filter_start_eq_filter_ek H]
  · intro hnd
    have hn : (st.events.map ek).Nodup := by
      rw [List.Nodup, List.pairwise_map]
      refine hnd.imp_of_mem ?_
      intro a b ha hb hne h
      obtain ⟨ta, hta⟩ := H a ha
      obtain ⟨tb, htb⟩ := H b hb
      apply hne
      rw [hta, htb]
      simp only [ek, hta, htb] at h
      rw [h]
    show (sortS evLt st.events.reverse).reverse = (sortS evLt st.events).reverse
    rw [hdes, sortS_reverse_eq_of_nodup hn, ← hasc]

/-- C1 counterexample store: two events sharing `start_time`. -/
def tieStore : CalendarParser :=
  { events :=
      [{ name := some (pstr "A"), start_time := some (.dtime 0 none) },
       { name := some (pstr "B"), start_time := some (.dtime 0 none) }] }

/-- C1 counterexample: with two events sharing a `start_time`,
`sort_by_latest` is *not* the reverse of `sort_by_oldest` (both keep the tied
pair in stored order, as stability demands). -/
theorem sort_by_latest_not_reverse_on_tie :
    (sort_by_latest tieStore false).1 ≠ ((sort_by_oldest tieStore false).1).reverse
    ∧ (sort_by_latest tieStore false).1 = (sort_by_oldest tieStore false).1 := by
  constructor
  · decide
  · decide

/-- Witness for the amended C1 theorem at a concrete three-event store. -/
def distinctStore : CalendarParser :=
  { events :=
      [{ name := some (pstr "B"), start_time := some (.dtime 50 none) },
       { name := some (pstr "A"), start_time := some (.dtime 10 none) },
       { name := some (pstr "C"), start_time := some (.dtime 99 none) }] }

theorem sort_by_oldest_latest_witness :
    (sort_by_latest distinctStore false).1 =
      ((sort_by_oldest distinctStore false).1).reverse ∧
    (sort_by_oldest distinctStore false).1.filter
        (fun e => decide (e.start_time = some (.dtime 10 none))) =
      distinctStore.events.filter
        (fun e => decide (e.start_time = some (.dtime 10 none))) := by
  have H : ∀ e ∈ distinctStore.events, hasNaiveStart e := by
    intro e he
    simp only [distinctStore, List.mem_cons, List.not_mem_nil, or_false] at he
    rcases he with h | h | h
    · exact ⟨50, by rw [h]⟩
    · exact ⟨10, by rw [h]⟩
    · exact ⟨99, by rw [h]⟩
  have main := sort_by_oldest_latest_stable_and_reverse distinctStore false false H
  exact ⟨main.2 (by decide), (main.1 10).1⟩

/-! ## Claim C2: selecting a file-configured source -/

/-- C2 (code bug).  With only `ics_file` configured, `parse_calendar` selects
the ICS path, but `parse_ics` aborts with `AssertionError` the moment it is
driven, because its assert reads `self.ics_url or self.ics_url` — `ics_file`
is never consulted.  The `xml_file`/`parse_xml` pair fails identically. -/
theorem parse_file_only_hits_assert
    (tzResolve : PyStr → TzFun) (cal : IcsCal)
    (xmlRest : Except PyErr (List CalendarEvent × CalendarParser))
    (f g : PyStr) (ow : Bool) :
    parse_calendar tzResolve { ics_file := some f } cal xmlRest true false false ow
      = .error .assertionError
    ∧ parse_calendar tzResolve { xml_file := some g } cal xmlRest true false false ow
      = .error .assertionError
    ∧ parse_ics tzResolve { ics_file := some f } cal ow = .error .assertionError
    ∧ parse_xml { xml_file := some g } xmlRest = .error .assertionError := by
  refine ⟨?_, ?_, ?_, ?_⟩ <;>
    simp [parse_calendar, parse_ics, parse_xml, Except.map]

/-! ## Claim C3: `__getitem__` name lookup -/

/-- The case-insensitive name match the lookup loop performs. -/
def nameMatches (item : PyStr) (e : CalendarEvent) : Bool :=
  match e.name with
  | some n => decide (lowerP n = lowerP item)
  | none => false

theorem foldlM_matchStep (item : PyStr) :
    ∀ (evs : List CalendarEvent) (acc : List CalendarEvent),
      (∀ e ∈ evs, e.name.isSome) →
      List.foldlM (matchStep item) acc evs
        = .ok (acc ++ evs.filter (nameMatches item)) := by
  intro evs
  induction evs with
  | nil =>
    intro acc _
    simp only [List.foldlM_nil, List.filter_nil, List.append_nil]
    rfl
  | cons e es ih =>
    intro acc H
    obtain ⟨n, hn⟩ := Option.isSome_iff_exists.mp (H e (by simp))
    have hstep : matchStep item acc e
        = pure (if lowerP n = lowerP item then acc ++ [e] else acc) := by
      simp [matchStep, hn]
    rw [List.foldlM_cons, hstep, pure_bind]
    by_cases hm : lowerP n = lowerP item
    · rw [if_pos hm, ih _ (fun x hx => H x (by simp [hx]))]
      simp [nameMatches, hn, hm, List.filter_cons]
    · rw [if_neg hm, ih _ (fun x hx => H x (by simp [hx]))]
      simp [nameMatches, hn, hm, List.filter_cons]

/-- C3: name lookup compares names case-insensitively; exactly one match
returns the single record, several matches return the list of them, zero
matches raise `LookupError`; and the operation never modifies the store (in
particular its event list). -/
theorem getitem_str_spec (st : CalendarParser) (item : PyStr)
    (H : ∀ e ∈ st.events, e.name.isSome) :
    (st.events.filter (nameMatches item) = [] →
        getitem_str st item = .error .lookupError)
    ∧ (∀ e, st.events.filter (nameMatches item) = [e] →
        getitem_str st item = .ok (.single e))
    ∧ (∀ e1 e2 rest, st.events.filter (nameMatches item) = e1 :: e2 :: rest →
        getitem_str st item = .ok (.several (e1 :: e2 :: rest)))
    ∧ (getitem_strS st item).2 = st := by
  have hfold := foldlM_matchStep item st.events [] H
  rw [List.nil_append] at hfold
  have key : getitem_str st item =
      (match st.events.filter (nameMatches item) with
       | [] => Except.error .lookupError
       | [e] => Except.ok (.single e)
       | l => Except.ok (.several l)) := by
    unfold getitem_str
    rw [hfold]
    rfl
  refine ⟨fun h0 => ?_, fun e h1 => ?_, fun e1 e2 rest h2 => ?_, rfl⟩
  · rw [key, h0]
  · rw [key, h1]
  · rw [key, h2]

/-- Witness data for the C3 theorem. -/
def meetingEvent : CalendarEvent :=
  { name := some (pstr "Team Meeting"), start_time := some (.dtime 0 none) }

def meetingStore : CalendarParser := { events := [meetingEvent] }

theorem getitem_str_witness :
    getitem_str meetingStore (pstr "TEAM MEETING") = .ok (.single meetingEvent)
    ∧ getitem_str meetingStore (pstr "absent") = .error .lookupError
    ∧ (getitem_strS meetingStore (pstr "absent")).2 = meetingStore := by
  refine ⟨?_, ?_, ?_⟩
  · exact (getitem_str_spec meetingStore (pstr "TEAM MEETING")
      (by decide)).2.1 meetingEvent (by decide)
  · exact (getitem_str_spec meetingStore (pstr "absent") (by decide)).1 (by decide)
  · exact (getitem_str_spec meetingStore (pstr "absent") (by decide)).2.2.2

/-! ## Claim C4: every format is tried; the last matching format wins -/

theorem scanFormats_last (m : PyStr → PyStr → Option TimeStruct) (s : PyStr) :
    ∀ (fmts : List PyStr) (f : PyStr) (t : TimeStruct),
      (fmts.filter (fun g => (m g s).isSome)).getLast? = some f →
      m f s = some t →
      scanFormats m fmts s = some t := by
  intro fmts
  induction fmts using List.reverseRecOn with
  | nil => intro f t h1 _; simp at h1
  | append_singleton l g ih =>
    intro f t h1 h2
    rw [scanFormats, List.foldl_append, List.foldl_cons, List.foldl_nil]
    cases hg : m g s with
    | some tg =>
      rw [List.filter_append] at h1
      simp only [List.filter_cons, List.filter_nil, hg, Option.isSome_some,
        if_true, List.getLast?_concat, Option.some.injEq] at h1
      subst h1
      rw [hg] at h2
      exact h2
    | none =>
      rw [List.filter_append] at h1
      simp only [List.filter_cons, List.filter_nil, hg, Option.isSome_none,
        Bool.false_eq_true, if_false, List.append_nil] at h1
      exact ih f t h1 h2

/-- C4: if, after the single-token preprocessing, the (possibly rewritten)
time string is matched by more than one entry of `TIME_FORMATS`, the datetime
returned by `_parse_time` is the one built from the *last* matching format in
the tuple — every format is attempted and each success overwrites the
previous one. -/
theorem parse_time_last_match_wins
    (m : PyStr → PyStr → Option TimeStruct) (time_str : PyStr)
    (ref : Option PyStr) (s' f : PyStr) (t : TimeStruct)
    (hpre : preprocessTime time_str ref = .ok s')
    (_hmulti : 2 ≤ (TIME_FORMATS.filter (fun g => (m g s').isSome)).length)
    (hlast : (TIME_FORMATS.filter (fun g => (m g s').isSome)).getLast? = some f)
    (hf : m f s' = some t) :
    parseTimeWith m time_str ref = .ok (structToDatetime t) := by
  have hscan := scanFormats_last m s' TIME_FORMATS f t hlast hf
  unfold parseTimeWith
  rw [hpre]
  show (match scanFormats m TIME_FORMATS s' with
        | none => Except.error PyErr.valueError
        | some t => Except.ok (structToDatetime t)) = _
  rw [hscan]

/-- Witness matcher for C4: a `strptime` on which the second and fourth
formats both match any two-token string. -/
def toyStrptime : PyStr → PyStr → Option TimeStruct := fun f _ =>
  if f = pstr "%a %b %d, %Y %I%p" then some ⟨2015, 1, 5, 14, 0, 0⟩
  else if f = pstr "%Y-%m-%dT%H:%M:%S" then some ⟨2020, 2, 2, 2, 2, 2⟩
  else none

theorem parse_time_last_match_witness :
    parseTimeWith toyStrptime (pstr "x y") none =
      .ok (structToDatetime ⟨2020, 2, 2, 2, 2, 2⟩) :=
  parse_time_last_match_wins toyStrptime (pstr "x y") none (pstr "x y")
    (pstr "%Y-%m-%dT%H:%M:%S") ⟨2020, 2, 2, 2, 2, 2⟩
    (by decide) (by decide) (by decide) (by decide)

/-! ## Claim C5: the all-day rule of the feed's "When: " branch -/

theorem ebind_ok {ε α β : Type} (a : α) (f : α → Except ε β) :
    (Except.ok a >>= f) = f a := rfl

theorem ebind_err {ε α β : Type} (e : ε) (f : α → Except ε β) :
    ((Except.error e : Except ε α) >>= f) = .error e := rfl

/-- C5 (amended).  For a when-line with no explicit `" to "`-separated end (and
no end time already recorded): if the parsed start has `hour = 0` and
`minute = 0` — its *seconds* field is never inspected — the record becomes
all-day with `end_time = start_time + 1 day`; otherwise `all_day = false`.
When an explicit end is present, `all_day = false`. -/
theorem whenBranch_span (d : CalendarEvent) (whenSrc : PyStr)
    (hend : d.end_time = none) :
    (∀ startStr rest st',
       whenParts whenSrc = startStr :: rest → rest.length ≠ 1 →
       parse_time startStr none = .ok st' →
       whenBranch d whenSrc =
         .ok (if dtHour st' = 0 ∧ dtMinute st' = 0 then
                { d with start_time := some (.dtime st' none),
                         all_day := some true,
                         end_time := some (.dtime (st' + 86400) none) }
              else
                { d with start_time := some (.dtime st' none),
                         all_day := some false }))
    ∧ (∀ startStr endStr st' en',
       whenParts whenSrc = [startStr, endStr] →
       parse_time endStr (some startStr) = .ok en' →
       parse_time startStr none = .ok st' →
       whenBranch d whenSrc =
         .ok { d with start_time := some (.dtime st' none),
                      end_time := some (.dtime en' none),
                      all_day := some false }) := by
  constructor
  · intro startStr rest st' hparts hlen hst
    rcases rest with _ | ⟨r, rs⟩
    · simp only [whenBranch, hparts, hst, ebind_ok, ebind_err, pure_bind, getKey,
        pvHour, pvMinute, hend]
      by_cases hm : dtHour st' = 0 ∧ dtMinute st' = 0
      · simp only [hm.1, hm.2, and_self, if_true, ebind_ok]
        rfl
      · rw [if_neg (by simpa using hm), if_neg (by simpa using hm)]
        rfl
    · rcases rs with _ | ⟨r2, rs2⟩
      · exact (hlen (by simp)).elim
      · simp only [whenBranch, hparts, hst, ebind_ok, ebind_err, pure_bind, getKey,
          pvHour, pvMinute, hend]
        by_cases hm : dtHour st' = 0 ∧ dtMinute st' = 0
        · simp only [hm.1, hm.2, and_self, if_true, ebind_ok]
          rfl
        · rw [if_neg (by simpa using hm), if_neg (by simpa using hm)]
          rfl
  · intro startStr endStr st' en' hparts hen hst
    simp only [whenBranch, hparts, hst, hen, ebind_ok, ebind_err, pure_bind,
      getKey, pvHour, pvMinute]
    rw [if_neg (by simp)]
    rfl

/-- C5 counterexample: the when-line `"When: 2015-01-05T00:00:30.5"` parses to
a start 30 seconds *after* midnight (the truncated-at-dot ISO shape carries
seconds), yet the code marks the event all-day, because the midnight test only
inspects `hour` and `minute`. -/
theorem whenBranch_seconds_after_midnight_still_all_day :
    whenBranch {} (pstr "When: 2015-01-05T00:00:30.5")
      = .ok { start_time := some (.dtime 1420416030 none),
              end_time := some (.dtime 1420502430 none),
              all_day := some true }
    ∧ dtTimeOfDay 1420416030 = 30 ∧ (30 : Int) ≠ 0 :=
  ⟨by decide, by decide, by decide⟩

/-- Witness for the C5 theorem: an explicit `" to "` span (with a trailing
timezone token, which the 4-token rule strips). -/
theorem whenBranch_span_witness :
    whenBranch {}
        (pstr "When: Mon Jan 5, 2015 10:00AM to Mon Jan 5, 2015 2:00PM PST")
      = .ok { ({} : CalendarEvent) with
              start_time := some (.dtime 1420452000 none),
              end_time := some (.dtime 1420466400 none),
              all_day := some false } :=
  (whenBranch_span {}
      (pstr "When: Mon Jan 5, 2015 10:00AM to Mon Jan 5, 2015 2:00PM PST")
      rfl).2
    (pstr "Mon Jan 5, 2015 10:00AM") (pstr "Mon Jan 5, 2015 2:00PM")
    1420452000 1420466400 (by decide) (by decide) (by decide)

/-! ## Claim C6: YEARLY rule with BYMONTHDAY/BYMONTH overrides -/

theorem yearlyBranch_shape {d d' : CalendarEvent}
    (h : yearlyBranch d = .ok d') :
    ∃ day mo ad, yearlyFields d = .ok (day, mo, ad) ∧
      d' = { d with repeat_day := some (.i day), repeat_month := some mo,
                    all_day := some ad } := by
  unfold yearlyBranch at h
  cases hf : yearlyFields d with
  | error e => rw [hf] at h; cases h
  | ok trip =>
    obtain ⟨day, mo, ad⟩ := trip
    rw [hf] at h
    refine ⟨day, mo, ad, rfl, ?_⟩
    cases h
    rfl

/-- C6: an ICS event whose recurrence rule is
`FREQ=YEARLY;BYMONTH=12;BYMONTHDAY=25` (no BYDAY) yields, whenever a record is
produced at all, `repeats = true`, `repeat_freq = "YEARLY"`,
`repeat_month = 12` (BYMONTH overriding the month seeded from `start_time`)
and `repeat_day = 25` (BYMONTHDAY overriding the seeded day). -/
theorem processIcsEvent_yearly_overrides (tz : TzFun) (ev : IcsEvent)
    (u : Option (List PyVal)) (d : CalendarEvent)
    (hr : ev.rrule = some { freq := some [pstr "YEARLY"], byday := none,
                            bymonthday := some [25], bymonth := some [12],
                            untilL := u })
    (hok : processIcsEvent tz ev = .ok d) :
    d.repeats = some true ∧ d.repeat_freq = some (pstr "YEARLY")
    ∧ d.repeat_month = some 12 ∧ d.repeat_day = some (.i 25) := by
  unfold processIcsEvent at hok
  rw [hr] at hok
  simp only [getKey, pyHead, ebind_ok, pure_bind] at hok
  rw [if_pos trivial] at hok
  cases h9 : yearlyBranch ({ buildBase tz ev with
      repeats := some true,
      repeat_freq := some (pstr "YEARLY") }) with
  | error e => rw [h9] at hok; cases hok
  | ok d9 =>
    rw [h9] at hok
    rw [ebind_ok] at hok
    obtain ⟨day, mo, ad, hfld, hd9⟩ := yearlyBranch_shape h9
    unfold applyOverrides at hok
    simp only [pyHead, ebind_ok, pure_bind] at hok
    cases u with
    | none =>
      cases hok
      subst hd9
      exact ⟨rfl, rfl, rfl, rfl⟩
    | some l =>
      cases l with
      | nil => cases hok
      | cons v vt =>
        cases hok
        subst hd9
        exact ⟨rfl, rfl, rfl, rfl⟩

/-- Witness data for C6: a YEARLY event starting 1970-01-01 10:00. -/
def yearlyRule : RRuleDict :=
  { freq := some [pstr "YEARLY"], byday := none,
    bymonthday := some [25], bymonth := some [12] }

def yearlyEvent : IcsEvent :=
  { dtstart := some (.dtime 36000 none), rrule := some yearlyRule }

def yearlyRecord : CalendarEvent :=
  { start_time := some (.dtime 36000 none), all_day := some false,
    repeats := some true, repeat_freq := some (pstr "YEARLY"),
    repeat_day := some (.i 25), repeat_month := some 12 }

theorem processIcsEvent_yearly_witness :
    processIcsEvent (fun _ => 0) yearlyEvent = .ok yearlyRecord
    ∧ (yearlyRecord.repeats = some true
       ∧ yearlyRecord.repeat_freq = some (pstr "YEARLY")
       ∧ yearlyRecord.repeat_month = some 12
       ∧ yearlyRecord.repeat_day = some (.i 25)) :=
  ⟨by decide,
   processIcsEvent_yearly_overrides (fun _ => 0) yearlyEvent none yearlyRecord
     rfl (by decide)⟩

/-! ## Claim C7: `parse` with no configured source -/

/-- C7 (amended).  With no source configured, `parse_calendar` itself never
raises the ConfigurationError: without `force_list` it returns the unassigned
generator (`None`) and leaves the store untouched; with `force_list` the list
comprehension iterates `None` and fails with `TypeError`.  No event is ever
added.  The ConfigurationError (`UnboundLocalError`) lives in
`fetch_calendar`'s source selection, which `parse_calendar` never reaches
here. -/
theorem parse_calendar_no_source (tzResolve : PyStr → TzFun) (cal : IcsCal)
    (xmlRest : Except PyErr (List CalendarEvent × CalendarParser))
    (tzn : Option PyStr) (ttl sub auth em : PyStr)
    (lu dp : Option Int) (evs : List CalendarEvent)
    (use_xml use_ics ow : Bool) :
    let st : CalendarParser :=
      { ics_file := none, ics_url := none, xml_file := none, xml_url := none,
        time_zone := tzn, title := ttl, subtitle := sub, author := auth,
        email := em, last_updated := lu, date_published := dp, events := evs }
    parse_calendar tzResolve st cal xmlRest false use_xml use_ics ow
        = .ok (.gen none, st)
    ∧ parse_calendar tzResolve st cal xmlRest true use_xml use_ics ow
        = .error .typeError
    ∧ fetch_source st = .error .unboundLocalError := by
  intro st
  refine ⟨?_, ?_, rfl⟩
  · simp [parse_calendar]
  · simp [parse_calendar]

/-- C7 counterexample: on a freshly constructed source-less store,
`parse_calendar()` (defaults: no `force_list`) returns `None` *successfully* —
it is not the ConfigurationError (`UnboundLocalError`) the claim promises —
and the event list stays empty; with `force_list=True` the failure is a
`TypeError`, again not the ConfigurationError. -/
theorem parse_calendar_no_source_counterexample :
    parse_calendar (fun _ _ => 0) {} {} (.error .typeError) false false false true
      = .ok (.gen none, {})
    ∧ parse_calendar (fun _ _ => 0) {} {} (.error .typeError) false false false true
      ≠ .error .unboundLocalError
    ∧ parse_calendar (fun _ _ => 0) {} {} (.error .typeError) true false false true
      = .error .typeError
    ∧ ({} : CalendarParser).events = [] :=
  ⟨by decide, by decide, by decide, rfl⟩

/-! ## Claim C8: `_fix_timezone` -/

/-- C8: a timezone-aware datetime is re-expressed at the same UTC instant in
the calendar's zone and stripped of its tag (the result is naive); a date
becomes midnight naive local time of that date, independently of the timezone
(no timezone math); a naive datetime and any other value pass through
unchanged. -/
theorem fix_timezone_spec :
    ∀ (tz : TzFun) (t off y m dd : Int) (n : Nat),
      (fix_timezone (.dtime t (some off)) tz
          = .dtime (utcInstant t off + tz (utcInstant t off)) none
        ∧ utcInstant (utcInstant t off + tz (utcInstant t off))
            (tz (utcInstant t off)) = utcInstant t off)
      ∧ (fix_timezone (.pdate y m dd) tz = .dtime (mkDatetime y m dd 0 0 0) none
         ∧ ∀ tz2, fix_timezone (.pdate y m dd) tz = fix_timezone (.pdate y m dd) tz2)
      ∧ fix_timezone (.dtime t none) tz = .dtime t none
      ∧ fix_timezone (.other n) tz = .other n := by
  intro tz t off y m dd n
  refine ⟨⟨rfl, ?_⟩, ⟨rfl, fun tz2 => rfl⟩, rfl, rfl⟩
  unfold utcInstant
  ring

/-! ## Claim C9: no shape matches -/

/-- C9 (amended).  Whenever the single-token preprocessing succeeds (i.e. the
input is not an hour-only token lacking a truthy reference — that case dies on
the `assert` with `AssertionError` instead, see the counterexample) and no
entry of `TIME_FORMATS` matches the preprocessed string, `_parse_time` raises
the FormatError (`ValueError`). -/
theorem parse_time_no_match_value_error
    (m : PyStr → PyStr → Option TimeStruct) (time_str : PyStr)
    (ref : Option PyStr) (s' : PyStr)
    (hpre : preprocessTime time_str ref = .ok s')
    (hnone : ∀ f ∈ TIME_FORMATS, m f s' = none) :
    parseTimeWith m time_str ref = .error .valueError := by
  have hscan : scanFormats m TIME_FORMATS s' = none := by
    have h1 := hnone (pstr "%a %b %d, %Y %I:%M%p") (by simp [TIME_FORMATS])
    have h2 := hnone (pstr "%a %b %d, %Y %I%p") (by simp [TIME_FORMATS])
    have h3 := hnone (pstr "%a %b %d, %Y") (by simp [TIME_FORMATS])
    have h4 := hnone (pstr "%Y-%m-%dT%H:%M:%S") (by simp [TIME_FORMATS])
    unfold scanFormats TIME_FORMATS
    simp [h1, h2, h3, h4]
  unfold parseTimeWith
  rw [hpre]
  show (match scanFormats m TIME_FORMATS s' with
        | none => Except.error PyErr.valueError
        | some t => Except.ok (structToDatetime t)) = _
  rw [hscan]

/-- C9 counterexample: the hour-only string `"2PM"` with no reference matches
no shape, yet the failure is the reference-`assert` (`AssertionError`), not
the FormatError (`ValueError`). -/
theorem parse_time_hour_only_no_ref_assertion :
    parse_time (pstr "2PM") none = .error .assertionError
    ∧ parse_time (pstr "2PM") none ≠ .error .valueError
    ∧ (∀ f ∈ TIME_FORMATS, strptimeM f (pstr "2PM") = none) :=
  ⟨by decide, by decide, by decide⟩

/-- Witness for the amended C9 theorem on the real `strptime` model. -/
theorem parse_time_no_match_witness :
    parseTimeWith strptimeM (pstr "not a time") none = .error .valueError :=
  parse_time_no_match_value_error strptimeM (pstr "not a time") none
    (pstr "not a time") (by decide) (by decide)

/-! ## Claim C10: DTSTART/DTEND as preconditions of the YEARLY path -/

theorem buildBase_fields (tz : TzFun) (ev : IcsEvent) :
    (buildBase tz ev).start_time = ev.dtstart.map (fun v => fix_timezone v tz)
    ∧ (buildBase tz ev).end_time = ev.dtend.map (fun v => fix_timezone v tz)
    ∧ (buildBase tz ev).repeats = some false :=
  ⟨rfl, rfl, rfl⟩

theorem yearlyBranch_no_start {d : CalendarEvent} (h : d.start_time = none) :
    yearlyBranch d = .error .keyError := by
  unfold yearlyBranch yearlyFields
  rw [h]
  rfl

theorem yearlyBranch_midnight_no_end {d : CalendarEvent} {t : Int}
    (hs : d.start_time = some (.dtime t none)) (he : d.end_time = none)
    (h0 : dtHour t = 0) (m0 : dtMinute t = 0) :
    yearlyBranch d = .error .keyError := by
  unfold yearlyBranch yearlyFields
  rw [hs]
  simp only [getKey, pvDay, pvMonth, pvHour, pvMinute, ebind_ok, pure_bind]
  rw [if_pos ⟨h0, m0⟩, he]
  rfl

/-- C10 (amended).  On the YEARLY recurrence path the extractor
unconditionally reads `start_time`, so a missing DTSTART aborts the event with
a `KeyError`; `end_time`, however, is read only when the (normalised) start
sits at hour 0, minute 0 — only then does a missing DTEND abort with a
`KeyError` (a non-midnight start with no DTEND extracts fine, see the
counterexample). -/
theorem processIcsEvent_yearly_missing_keys (tz : TzFun) (ev : IcsEvent)
    (rep : RRuleDict) (ftl : List PyStr)
    (hr : ev.rrule = some rep) (hf : rep.freq = some (pstr "YEARLY" :: ftl)) :
    (ev.dtstart = none → processIcsEvent tz ev = .error .keyError)
    ∧ (∀ v t, ev.dtstart = some v → fix_timezone v tz = .dtime t none →
        dtHour t = 0 → dtMinute t = 0 → ev.dtend = none →
        processIcsEvent tz ev = .error .keyError) := by
  constructor
  · intro hstart
    unfold processIcsEvent
    rw [hr]
    dsimp only
    rw [hf]
    simp only [getKey, pyHead, ebind_ok, pure_bind]
    rw [if_pos (by trivial)]
    rw [yearlyBranch_no_start (by
      show (buildBase tz ev).start_time = none
      rw [(buildBase_fields tz ev).1, hstart]
      rfl)]
    rfl
  · intro v t hstart hfix h0 m0 hend
    unfold processIcsEvent
    rw [hr]
    dsimp only
    rw [hf]
    simp only [getKey, pyHead, ebind_ok, pure_bind]
    rw [if_pos (by trivial)]
    rw [yearlyBranch_midnight_no_end (t := t) (by
        show (buildBase tz ev).start_time = some (.dtime t none)
        rw [(buildBase_fields tz ev).1, hstart]
        simp [hfix])
      (by
        show (buildBase tz ev).end_time = none
        rw [(buildBase_fields tz ev).2.1, hend]
        rfl)
      h0 m0]
    rfl

/-- C10 counterexample: a YEARLY event with DTSTART at 10:00 and *no* DTEND
extracts successfully — DTEND present is not a precondition of the YEARLY
path when the start is not at minute zero of hour zero. -/
def yearlyNoEndEvent : IcsEvent :=
  { dtstart := some (.dtime 36000 none),
    rrule := some { freq := some [pstr "YEARLY"] } }

theorem processIcsEvent_no_dtend_still_ok :
    processIcsEvent (fun _ => 0) yearlyNoEndEvent
      = .ok { start_time := some (.dtime 36000 none), all_day := some false,
              repeats := some true, repeat_freq := some (pstr "YEARLY"),
              repeat_day := some (.i 1), repeat_month := some 1 }
    ∧ yearlyNoEndEvent.dtend = none :=
  ⟨by decide, rfl⟩

/-- Witness events for the amended C10 theorem. -/
def noStartEvent : IcsEvent := { rrule := some { freq := some [pstr "YEARLY"] } }

def midnightNoEndEvent : IcsEvent :=
  { dtstart := some (.dtime 0 none),
    rrule := some { freq := some [pstr "YEARLY"] } }

theorem processIcsEvent_yearly_missing_keys_witness :
    processIcsEvent (fun _ => 0) noStartEvent = .error .keyError
    ∧ processIcsEvent (fun _ => 0) midnightNoEndEvent = .error .keyError :=
  ⟨(processIcsEvent_yearly_missing_keys (fun _ => 0) noStartEvent _ []
      rfl rfl).1 rfl,
   (processIcsEvent_yearly_missing_keys (fun _ => 0) midnightNoEndEvent _ []
      rfl rfl).2 (.dtime 0 none) 0 rfl rfl (by decide) (by decide) rfl⟩
